import Mathlib

/-!
Verification development for the SECparser extraction/normalization engine
(src/main.py).  The Python pipeline is shallowly embedded:

* pandas Series become lists of optional rationals (NaN cells are `none`);
* DataFrames become association lists from a row label to its period series,
  kept in index order;
* Python float arithmetic on the pipeline values is idealized as exact
  rational arithmetic; the fractional powers used by the CAGR and the
  IRR grid are idealized as real `rpow`;
* Python `round(x, 2)` is modelled as exact half-to-even rounding of the
  rational or real value at two decimals;
* Python truthiness on an optional numeric (`if v:` / `a or b`) is modelled
  by `truthy` : `none` and `some 0` are falsy, everything else truthy;
* dictionaries built by `analyze_company` become association lists in
  insertion order.
-/

/-- One pandas Series column: period values, most recent first; `none` is NaN. -/
abbrev PSeries := List (Option ℚ)

/-- One statement DataFrame: label-indexed rows, in index order. -/
abbrev StmtTable := List (String × PSeries)

/-- First non-NaN value of a series: `series.dropna().iloc[0]`. -/
def firstSome : PSeries → Option ℚ
  | [] => none
  | none :: rest => firstSome rest
  | some q :: _ => some q

/-- Round half to even to an integer, as Python `round` does on the value `x`. -/
def roundHalfEvenQ (x : ℚ) : ℤ :=
  if x - ⌊x⌋ < 1/2 then ⌊x⌋
  else if 1/2 < x - ⌊x⌋ then ⌊x⌋ + 1
  else if 2 ∣ ⌊x⌋ then ⌊x⌋ else ⌊x⌋ + 1

/-- Python `round(q, 2)` on an exact rational value. -/
def pythonRound2 (q : ℚ) : ℚ := (roundHalfEvenQ (q * 100) : ℚ) / 100

/-- Model of `extract_latest(series, fallback)` from src/main.py lines 70-75: first
non-NaN value; whole numbers (`float(value).is_integer()`) are returned
exactly, other values are rounded to two decimals; an empty (all-NaN) series
yields the fallback. -/
def extract_latest (series : PSeries) (fallback : Option ℚ) : Option ℚ :=
  match firstSome series with
  | some v => some (if v = (⌊v⌋ : ℚ) then v else pythonRound2 v)
  | none => fallback

/-- Model of `FINANCIAL_LABEL_ALIASES` from src/main.py lines 49-67. -/
def FINANCIAL_LABEL_ALIASES : List (String × List String) :=
  [("Revenue", ["Total Revenue", "Revenues", "Net Sales", "Sales"]),
   ("Gross Profit", ["Gross Profit", "Gross Income"]),
   ("SG&A", ["Selling General Administrative", "Operating Expenses",
             "SG&A Expense", "Selling & Admin", "Selling and Admin",
             "Selling, general and administrative expenses"]),
   ("Net Income", ["Net Income", "Net Earnings", "Net Profit",
                   "Income Available to Common Stockholders"]),
   ("Cash", ["Cash", "Cash and Cash Equivalents", "Cash & Equivalents"]),
   ("Total Debt", ["Long Term Debt", "Total Debt", "Total Liabilities"]),
   ("Equity", ["Total Stockholder Equity", "Total Equity", "Shareholder Equity"]),
   ("Operating Cash Flow", ["Total Cash From Operating Activities",
                            "Net Cash Provided by Operating Activities"]),
   ("CapEx", ["Capital Expenditures", "Purchase of Property and Equipment"]),
   ("Buybacks", ["Repurchase Of Stock", "Share Repurchase", "Treasury Stock Purchased"])]

/-- Lookup `FINANCIAL_LABEL_ALIASES.get(key, [key])`. -/
def aliasesFor (key : String) : List String :=
  match FINANCIAL_LABEL_ALIASES.find? (fun p => p.1 = key) with
  | some p => p.2
  | none => [key]

/-- Python `str.lower()` (character-wise, as these ASCII labels use it). -/
def strLower (s : String) : String := ⟨s.data.map Char.toLower⟩

/-- Row reached through `normalized_index`: the dict comprehension
`{i.lower(): i for i in df.index}` lets a later duplicate lower-cased label
overwrite an earlier one, so the last matching row wins. -/
def rowOfLower (df : StmtTable) (low : String) : Option PSeries :=
  match df.reverse.find? (fun p => strLower p.1 = low) with
  | some p => some p.2
  | none => none

/-- Membership test `label_lower in normalized_index`. -/
def containsLower (df : StmtTable) (low : String) : Bool :=
  df.any (fun p => strLower p.1 = low)

/-- The first alias (lower-cased) present in the normalized index. -/
def firstLowerHit (df : StmtTable) : List String → Option String
  | [] => none
  | l :: ls => if containsLower df (strLower l) then some (strLower l) else firstLowerHit df ls

/-- Model of `safe_extract(df, key)` from src/main.py lines 77-85: try each alias in
priority order against the lower-cased index, short-circuiting on the first
hit; return `None` when nothing matches. -/
def safe_extract (df : StmtTable) (key : String) : Option ℚ :=
  match firstLowerHit df (aliasesFor key) with
  | some low =>
    match rowOfLower df low with
    | some row => extract_latest row none
    | none => none
  | none => none

/-- Exact (case-sensitive) row lookup: `label in df.index` then `df.loc[label]`. -/
def exactRow (df : StmtTable) (label : String) : Option PSeries :=
  match df.find? (fun p => p.1 = label) with
  | some p => some p.2
  | none => none

/-- Model of `get_val(df, label, fallback_label)` from src/main.py lines 170-178:
case-sensitive primary label first, then the optional fallback label. -/
def get_val (df : StmtTable) (label : String) (fallback_label : Option String) : Option ℚ :=
  match exactRow df label with
  | some row => extract_latest row none
  | none =>
    match fallback_label with
    | some fl =>
      match exactRow df fl with
      | some row => extract_latest row none
      | none => none
    | none => none

/-- Python truthiness of an optional numeric: `None` and `0` are falsy. -/
def truthy : Option ℚ → Bool
  | none => false
  | some q => decide (q ≠ 0)

/-- Python `a or b` on optional numerics. -/
def pyOr (a b : Option ℚ) : Option ℚ := if truthy a then a else b

/-- Pattern `round(num / den * 100, 2) if num and den else None`, the shared shape of
the three margin computations in `analyze_company`. -/
def margin_pct (num den : Option ℚ) : Option ℚ :=
  if truthy num && truthy den then some (pythonRound2 (num.getD 0 / den.getD 0 * 100))
  else none

/-- Round half to even to an integer, as Python `round` does, for the real
values produced by fractional powers. -/
noncomputable def roundHalfEvenR (x : ℝ) : ℤ :=
  if x - ⌊x⌋ < 1/2 then ⌊x⌋
  else if 1/2 < x - ⌊x⌋ then ⌊x⌋ + 1
  else if 2 ∣ ⌊x⌋ then ⌊x⌋ else ⌊x⌋ + 1

/-- Python `round(x, 2)` on a real value. -/
noncomputable def pythonRound2R (x : ℝ) : ℝ := (roundHalfEvenR (x * 100) : ℝ) / 100

/-- The CAGR arithmetic of `calculate_trends` (src/main.py lines 146-150) on the
cleaned (NaN-dropped) period values: fewer than two periods give `None`,
otherwise `round(((values[0] / values[-1]) ** (1 / (len(values) - 1)) - 1) * 100, 2)`.
The float power is idealized as real `rpow`; with a negative base and a
fractional exponent numpy produces NaN (a non-None float) where `rpow`
produces some real number — in both semantics the result is not `None`. -/
noncomputable def cagr (vals : List ℚ) : Option ℝ :=
  if 2 ≤ vals.length then
    some (pythonRound2R
      (((((vals.headD 0 : ℚ) : ℝ) / ((vals.getLastD 0 : ℚ) : ℝ)) ^
          ((1 : ℝ) / ((vals.length : ℝ) - 1)) - 1) * 100))
  else none

/-- The first alias with an exact (case-sensitive) hit in the index, and its row. -/
def exactFirstHit (df : StmtTable) : List String → Option PSeries
  | [] => none
  | l :: ls =>
    match exactRow df l with
    | some row => some row
    | none => exactFirstHit df ls

/-- Model of `calculate_trends(df, line_item)` from src/main.py lines 142-151: iterate
the aliases of `line_item` (just `[line_item]` when it is not an alias-table
key), return on the first exact label hit, `None` when no label matches. -/
noncomputable def calculate_trends (df : StmtTable) (line_item : String) : Option ℝ :=
  match exactFirstHit df (aliasesFor line_item) with
  | some row => cagr (row.filterMap id)
  | none => none

/-- Expression `((exit_ev / entry_ev) ** (1 / hold_period) - 1) * 100` with the fixed
3-year hold (src/main.py line 231). -/
noncomputable def irrRaw (exit_ev entry_ev : ℚ) : ℝ :=
  (((exit_ev : ℝ) / (entry_ev : ℝ)) ^ ((1 : ℝ) / 3) - 1) * 100

/-- One row of the IRR grid (src/main.py lines 228-232).  `debt or 0` and
`cash or 0` coincide with `getD 0` because the falsy optionals are exactly
`None` and `0`.  The recorded cell is `round(irr, 2) if irr else None`: a
`None` IRR (entry EV not positive) and an IRR of exactly `0` (falsy float)
both record `None`.  Rows are only produced (see `irrTableOpt`) when no
negative-base power arises, so `irrRaw`'s real `rpow` here only stands for
float powers of a non-negative base, where the two agree. -/
noncomputable def irrRow (mc fcf : ℚ) (debt cash : Option ℚ) (multiple : ℕ) :
    ℕ × Option ℝ :=
  let exit_ev : ℚ := (multiple : ℚ) * fcf
  let entry_ev : ℚ := mc + debt.getD 0 - cash.getD 0
  if 0 < entry_ev then
    (multiple,
      if irrRaw exit_ev entry_ev = 0 then none
      else some (pythonRound2R (irrRaw exit_ev entry_ev)))
  else (multiple, none)

/-- Outcome of the IRR block: either the grid, or the caught exception of
lines 234-235 (`summary["IRR Table"] = f"Error calculating IRR: {str(e)}"`;
the interpreter-specific `str(e)` text is modelled as a fixed string). -/
inductive IrrResult where
  | grid (rows : List (ℕ × Option ℝ))
  | err

/-- The IRR grid guard and loop (src/main.py lines 223-235):
`if market_cap and fcf and fcf != 0` (the last conjunct is subsumed by
truthiness), then one row per multiple in `range(8, 13)`; when the guard
fails no `"IRR Table"` entry is produced at all.  When FCF is negative and
the entry EV positive, the first iteration computes
`(exit_ev / entry_ev) ** (1/3)` with a negative base, which in Python 3
returns a complex number; the complex value is truthy and `round` on it
raises TypeError, so the `except` branch replaces the whole grid with an
error string — modelled by `IrrResult.err`. -/
noncomputable def irrTableOpt (mc fcf debt cash : Option ℚ) : Option IrrResult :=
  if truthy mc && truthy fcf then
    some (if fcf.getD 0 < 0 ∧ 0 < mc.getD 0 + debt.getD 0 - cash.getD 0 then IrrResult.err
          else IrrResult.grid ([8, 9, 10, 11, 12].map (irrRow (mc.getD 0) (fcf.getD 0) debt cash)))
  else none

/-- The grid rows of an IRR outcome, when it is a grid. -/
def gridRows? : Option IrrResult → Option (List (ℕ × Option ℝ))
  | some (IrrResult.grid rows) => some rows
  | _ => none

/-- A value of the summary dictionary produced by `analyze_company`. -/
inductive SVal where
  | str (s : String)
  | entry (value : Option ℚ) (source : String)
  | rentry (value : Option ℝ) (source : String)
  | irrT (rows : List (ℕ × Option ℝ))

/-- The summary dictionary, as an association list in insertion order. -/
abbrev Summary := List (String × SVal)

/-- Model of `label_source(value, source)` from src/main.py lines 153-154: the source
tag is kept only when the value is not `None` (`is not None`, not truthiness). -/
def label_source (v : Option ℚ) (s : String) : SVal :=
  SVal.entry v (if v.isSome then s else "Missing")

/-- Variant of `label_source` for the real-valued CAGR entries. -/
def label_sourceR (v : Option ℝ) (s : String) : SVal :=
  SVal.rentry v (if v.isSome then s else "Missing")

/-- The in-memory source tables `analyze_company` fetches (lines 158-164);
tables that loaded empty are empty association lists. -/
structure Sources where
  marketCap : Option ℚ
  longName : Option String
  fin : StmtTable
  bal : StmtTable
  cf : StmtTable
  qbal : StmtTable
  qcf : StmtTable

/-- Model of `analyze_company(ticker)` from src/main.py lines 156-237.  The fetch is
passed in: `.error e` models the `except` branch (lines 165-166), which
returns a dictionary holding only the `"error"` key; `.ok src` models the
success path, which builds the full summary dictionary. -/
noncomputable def analyze_company (ticker : String) (fetch : Except String Sources) :
    Summary :=
  match fetch with
  | .error e => [("error", SVal.str ("Yahoo Finance failed for " ++ ticker ++ ": " ++ e))]
  | .ok src =>
    let rev := get_val src.fin "Total Revenue" none
    let gp := get_val src.fin "Gross Profit" none
    let sga := get_val src.fin "Selling General Administrative" (some "Operating Expenses")
    let ni := get_val src.fin "Net Income" none
    let cash := pyOr (get_val src.bal "Cash" none) (get_val src.qbal "Cash" none)
    let debt := pyOr (get_val src.bal "Long Term Debt" (some "Total Debt"))
      (get_val src.qbal "Long Term Debt" (some "Total Debt"))
    let equity := pyOr (get_val src.bal "Total Stockholder Equity" none)
      (get_val src.qbal "Total Stockholder Equity" none)
    let ocf := pyOr (get_val src.cf "Total Cash From Operating Activities" none)
      (get_val src.qcf "Total Cash From Operating Activities" none)
    let capex := pyOr (get_val src.cf "Capital Expenditures" none)
      (get_val src.qcf "Capital Expenditures" none)
    let buybacks := pyOr (get_val src.cf "Repurchase Of Stock" none)
      (get_val src.qcf "Repurchase Of Stock" none)
    let fcf := if truthy ocf && truthy capex then some (ocf.getD 0 + capex.getD 0) else none
    [("Company", SVal.str (src.longName.getD ticker)),
     ("Ticker", SVal.str ticker.toUpper),
     ("Revenue", label_source rev "Yahoo Finance"),
     ("Gross Profit", label_source gp "Yahoo Finance"),
     ("SG&A", label_source sga "Estimated"),
     ("Net Income", label_source ni "Yahoo Finance"),
     ("Gross Margin (%)", label_source (margin_pct gp rev) "Calculated"),
     ("Net Income Margin (%)", label_source (margin_pct ni rev) "Calculated"),
     ("SG&A as % of Revenue", label_source (margin_pct sga rev) "Calculated"),
     ("Cash", label_source cash "Yahoo Finance"),
     ("Total Debt", label_source debt "Yahoo Finance"),
     ("Net Debt",
       label_source (if truthy debt && truthy cash then some (debt.getD 0 - cash.getD 0) else none)
         "Calculated"),
     ("Debt-to-Equity Ratio",
       label_source
         (if truthy debt && truthy equity then some (pythonRound2 (debt.getD 0 / equity.getD 0))
          else none) "Calculated"),
     ("Operating Cash Flow", label_source ocf "Estimated"),
     ("CapEx", label_source capex "Estimated"),
     ("Share Buybacks", label_source buybacks "Estimated"),
     ("Free Cash Flow", label_source fcf "Calculated"),
     ("FCF Margin (%)", label_source (margin_pct fcf rev) "Calculated"),
     ("Revenue CAGR (%)", label_sourceR (calculate_trends src.fin "Total Revenue") "Calculated"),
     ("Net Income CAGR (%)", label_sourceR (calculate_trends src.fin "Net Income") "Calculated"),
     ("SG&A CAGR (%)",
       label_sourceR (calculate_trends src.fin "Selling General Administrative") "Calculated")]
    ++ (match irrTableOpt src.marketCap fcf debt cash with
        | some (IrrResult.grid rows) => [("IRR Table", SVal.irrT rows)]
        | some IrrResult.err =>
          [("IRR Table", SVal.str "Error calculating IRR: complex power")]
        | none => [])

/-- The keys of a summary dictionary. -/
def keysOf (s : Summary) : List String := s.map (fun p => p.1)

/-- Access `summary[k]["value"]` for a plain numeric entry (`None` when the key is
absent or not a numeric entry; the summaries built by `analyze_company`'s
success path always carry the keys the comparator reads). -/
def getEntryVal (s : Summary) (k : String) : Option ℚ :=
  match s.find? (fun p => p.1 = k) with
  | some (_, SVal.entry v _) => v
  | _ => none

/-- Access `summary[k]["source"]` for a plain numeric entry. -/
def getEntrySrc (s : Summary) (k : String) : Option String :=
  match s.find? (fun p => p.1 = k) with
  | some (_, SVal.entry _ src) => some src
  | _ => none

/-- The two line lists `parse_uploaded_content` feeds into the brief. -/
structure Parsed where
  strategy_flags : List String
  board_insights : List String

/-- One insight appended by `generate_brief` (src/main.py lines 426-449),
abstracted from its f-string to its trigger and cited values. -/
inductive Insight where
  | grossMargin (subjVal peerVal : ℚ) (src : String)
  | sgaBurden (subjVal peerVal : ℚ) (src : String)
  | fcfMargin (subjVal peerVal : ℚ) (src : String)
  | strategyHeader
  | strategyLine (s : String)
  | boardHeader
  | boardLine (s : String)
  deriving DecidableEq

/-- The three per-peer rules of the peer loop (src/main.py lines 428-439),
in evaluation order; each side of each comparison goes through truthiness. -/
def peer_rules (main peer : Summary) : List Insight :=
  (if truthy (getEntryVal peer "Gross Margin (%)") &&
      truthy (getEntryVal main "Gross Margin (%)") &&
      decide ((getEntryVal main "Gross Margin (%)").getD 0 + 2 <
        (getEntryVal peer "Gross Margin (%)").getD 0) then
    [Insight.grossMargin ((getEntryVal main "Gross Margin (%)").getD 0)
      ((getEntryVal peer "Gross Margin (%)").getD 0)
      ((getEntrySrc main "Gross Margin (%)").getD "")]
   else [])
  ++ (if truthy (getEntryVal peer "SG&A as % of Revenue") &&
        truthy (getEntryVal main "SG&A as % of Revenue") &&
        decide ((getEntryVal peer "SG&A as % of Revenue").getD 0 <
          (getEntryVal main "SG&A as % of Revenue").getD 0 - 2) then
      [Insight.sgaBurden ((getEntryVal main "SG&A as % of Revenue").getD 0)
        ((getEntryVal peer "SG&A as % of Revenue").getD 0)
        ((getEntrySrc main "SG&A as % of Revenue").getD "")]
     else [])
  ++ (if truthy (getEntryVal peer "FCF Margin (%)") &&
        truthy (getEntryVal main "FCF Margin (%)") &&
        decide ((getEntryVal main "FCF Margin (%)").getD 0 + 2 <
          (getEntryVal peer "FCF Margin (%)").getD 0) then
      [Insight.fcfMargin ((getEntryVal main "FCF Margin (%)").getD 0)
        ((getEntryVal peer "FCF Margin (%)").getD 0)
        ((getEntrySrc main "FCF Margin (%)").getD "")]
     else [])

/-- The lines appended after the peer loop (src/main.py lines 441-449):
strategy-flag and board-insight notes from the uploaded materials, each with
its header, only when the corresponding list is non-empty. -/
def upload_notes (parsed : Parsed) : List Insight :=
  (if parsed.strategy_flags.isEmpty then []
   else Insight.strategyHeader :: parsed.strategy_flags.map Insight.strategyLine)
  ++ (if parsed.board_insights.isEmpty then []
      else Insight.boardHeader :: parsed.board_insights.map Insight.boardLine)

/-- The insight list built by `generate_brief` (src/main.py lines 426-449):
the peer loop appends rule hits in order, then the upload notes follow. -/
def generate_brief_insights (main : Summary) (peers : List Summary) (parsed : Parsed) :
    List Insight :=
  (peers.foldl (fun acc peer => acc ++ peer_rules main peer) []) ++ upload_notes parsed

/-- Bool test for a gross-margin (rule 1) insight. -/
def isGrossMarginB : Insight → Bool
  | Insight.grossMargin _ _ _ => true
  | _ => false

/-- Bool test for an SG&A-burden (rule 2) insight. -/
def isSgaBurdenB : Insight → Bool
  | Insight.sgaBurden _ _ _ => true
  | _ => false

/-- Bool test for an FCF-margin (rule 3) insight. -/
def isFcfMarginB : Insight → Bool
  | Insight.fcfMargin _ _ _ => true
  | _ => false

/-- Parsed uploads with nothing found. -/
def emptyParsed : Parsed := ⟨[], []⟩

/-- Sources where every table loaded empty and no info is available. -/
def emptySources : Sources :=
  { marketCap := none, longName := none, fin := [], bal := [], cf := [], qbal := [], qcf := [] }

/-- Sources whose annual balance sheet reports a Long Term Debt of exactly 0
while the quarterly balance sheet reports 7. -/
def srcDebtZero : Sources :=
  { marketCap := none, longName := none, fin := [], bal := [("Long Term Debt", [some 0])],
    cf := [], qbal := [("Long Term Debt", [some 7])], qcf := [] }

/-- A subject summary with Cash 100 > Total Debt 50, Buybacks present, and
Revenue CAGR 1 < 2. -/
def subjOverCap : Summary :=
  [("Ticker", SVal.str "T"),
   ("Cash", SVal.entry (some 100) "Yahoo Finance"),
   ("Total Debt", SVal.entry (some 50) "Yahoo Finance"),
   ("Gross Margin (%)", SVal.entry (some 40) "Calculated"),
   ("SG&A as % of Revenue", SVal.entry (some 10) "Calculated"),
   ("FCF Margin (%)", SVal.entry (some 5) "Calculated"),
   ("Share Buybacks", SVal.entry (some 30) "Estimated"),
   ("Revenue CAGR (%)", SVal.entry (some 1) "Calculated")]

/-- A subject summary whose Gross Margin, SG&A ratio and FCF margin are all
missing. -/
def mainNoGM : Summary :=
  [("Ticker", SVal.str "T"),
   ("Gross Margin (%)", SVal.entry none "Missing"),
   ("SG&A as % of Revenue", SVal.entry none "Missing"),
   ("FCF Margin (%)", SVal.entry none "Missing")]

/-- A peer summary with all three comparison metrics present: Gross Margin
50, SG&A ratio 5, FCF margin 20. -/
def peerFull : Summary :=
  [("Ticker", SVal.str "P"),
   ("Gross Margin (%)", SVal.entry (some 50) "Calculated"),
   ("SG&A as % of Revenue", SVal.entry (some 5) "Calculated"),
   ("FCF Margin (%)", SVal.entry (some 20) "Calculated")]

/-- Lemma: `firstLowerHit` is the priority-ordered first alias whose lower-cased form
is present in the normalized index. -/
lemma firstLowerHit_eq (df : StmtTable) (ls : List String) :
    firstLowerHit df ls =
      (ls.find? (fun l => containsLower df (strLower l))).map strLower := by
  induction ls with
  | nil => rfl
  | cons l ls ih =>
    by_cases h : containsLower df (strLower l) = true
    · simp [firstLowerHit, List.find?, h]
    · simp only [Bool.not_eq_true] at h
      simp [firstLowerHit, List.find?, h, ih]

/-- A label that matches no index entry exactly has no exact row. -/
lemma exactRow_eq_none {df : StmtTable} {lab : String}
    (h : ∀ p ∈ df, p.1 ≠ lab) : exactRow df lab = none := by
  have hf : df.find? (fun p => p.1 = lab) = none := by
    rw [List.find?_eq_none]
    intro p hp
    simpa using h p hp
  simp [exactRow, hf]


/-- C6 counterexample: `extract_latest` on the non-integral value 1.234
returns 1.23, not the full-precision 1.234, so the value-extraction step does
round non-integral values. -/
theorem C6_cex :
    extract_latest [some (617/500)] none = some (123/100) ∧ ((123 : ℚ)/100) ≠ 617/500 := by
  constructor
  · norm_num [extract_latest, firstSome, pythonRound2, roundHalfEvenQ]
  · norm_num

/-- C6 (amended): `extract_latest` returns whole-number values exactly, but
rounds non-integral values to two decimals (half to even) instead of keeping
full precision; NaN cells are skipped and an all-NaN series yields the
fallback. -/
theorem C6_amended (q : ℚ) (s : PSeries) (fb : Option ℚ) :
    (q = (⌊q⌋ : ℚ) → extract_latest (some q :: s) fb = some q) ∧
    (q ≠ (⌊q⌋ : ℚ) → extract_latest (some q :: s) fb = some (pythonRound2 q)) ∧
    extract_latest (none :: s) fb = extract_latest s fb ∧
    extract_latest [] fb = fb := by
  refine ⟨fun h => ?_, fun h => ?_, rfl, rfl⟩
  · simp [extract_latest, firstSome, if_pos h]
  · simp [extract_latest, firstSome, if_neg h]

/-- C6 witness: the amended statement evaluated at the whole value 7 and the
non-integral value 27/8 = 3.375, which rounds half-to-even to 3.38. -/
theorem C6_witness :
    extract_latest [some 7] none = some 7 ∧
    extract_latest [some (27/8)] none = some (169/50) := by
  constructor
  · exact (C6_amended 7 [] none).1 (by norm_num)
  · have h := (C6_amended (27/8) [] none).2.1 (by norm_num)
    rw [h]
    norm_num [pythonRound2, roundHalfEvenQ]

/-- C7: `safe_extract` resolves a concept to the value of the first alias in
its priority-ordered alias list whose lower-cased form is present in the
table's normalized index, short-circuiting on the first hit; with both
aliases of a concept present it returns the first alias's value, and with no
alias present it returns `None`. -/
theorem C7_thm :
    (∀ (df : StmtTable) (key : String),
      safe_extract df key =
        ((aliasesFor key).find? (fun l => containsLower df (strLower l))).bind
          (fun l => (rowOfLower df (strLower l)).bind (fun row => extract_latest row none))) ∧
    safe_extract [("Gross Profit", [some 11]), ("Gross Income", [some 22])] "Gross Profit" =
      some 11 ∧
    safe_extract [("Something Else", [some 1])] "Revenue" = none := by
  refine ⟨fun df key => ?_, by decide, by decide⟩
  cases hf : (aliasesFor key).find? (fun l => containsLower df (strLower l)) with
  | none => simp [safe_extract, firstLowerHit_eq, hf]
  | some l =>
    simp only [safe_extract, firstLowerHit_eq, hf, Option.map_some, Option.some_bind]
    cases hr : rowOfLower df (strLower l) <;> simp [hr]

/-- C10: the CAGR path uses the raw labels as-is — neither "Total Revenue"
nor "Selling General Administrative" is an alias-table key, so each resolves
to the single literal label; the lookup is exact and case-sensitive, so a
table whose label differs only in case yields a missing CAGR even though the
case-insensitive alias-driven `safe_extract` resolves the same concept. -/
theorem C10_thm :
    aliasesFor "Total Revenue" = ["Total Revenue"] ∧
    aliasesFor "Selling General Administrative" = ["Selling General Administrative"] ∧
    (∀ df : StmtTable, (∀ p ∈ df, p.1 ≠ "Total Revenue") →
      calculate_trends df "Total Revenue" = none) ∧
    calculate_trends [("TOTAL REVENUE", [some 200, some 100])] "Total Revenue" = none ∧
    safe_extract [("TOTAL REVENUE", [some 200, some 100])] "Revenue" = some 200 := by
  refine ⟨by decide, by decide, fun df h => ?_, rfl, by decide⟩
  have h1 : aliasesFor "Total Revenue" = ["Total Revenue"] := by decide
  simp [calculate_trends, h1, exactFirstHit, exactRow_eq_none h]

/-- C10 witness: the case-sensitivity leg applied to the concrete upper-cased
table. -/
theorem C10_witness :
    calculate_trends [("TOTAL REVENUE", [some 150, some 100])] "Total Revenue" = none :=
  C10_thm.2.2.1 [("TOTAL REVENUE", [some 150, some 100])] (by decide)

/-- The peer loop's fold is the concatenation of the per-peer rule outputs. -/
lemma foldl_append_peer (main : Summary) (peers : List Summary) (acc : List Insight) :
    peers.foldl (fun a p => a ++ peer_rules main p) acc =
      acc ++ (peers.map (peer_rules main)).join := by
  induction peers generalizing acc with
  | nil => simp
  | cons p ps ih => simp [List.foldl_cons, ih]

/-- Nothing in the upload notes is a rule-1 (gross margin) insight. -/
lemma gm_not_in_upload (parsed : Parsed) :
    ∀ i ∈ upload_notes parsed, isGrossMarginB i = false := by
  intro i hi
  unfold upload_notes at hi
  rcases List.mem_append.mp hi with h | h <;>
    split_ifs at h <;> simp_all [List.mem_cons, List.mem_map] <;>
    rcases h with h | ⟨x, hx, rfl⟩ <;> simp_all [isGrossMarginB]

/-- When the subject's gross margin is falsy (missing or zero), the peer loop
emits no rule-1 insight for any peer. -/
lemma gm_not_in_peer_rules_main (main peer : Summary)
    (h : truthy (getEntryVal main "Gross Margin (%)") = false) :
    ∀ i ∈ peer_rules main peer, isGrossMarginB i = false := by
  intro i hi
  unfold peer_rules at hi
  simp only [h, Bool.and_false, Bool.false_and, if_false] at hi
  rcases List.mem_append.mp hi with h1 | h1
  · rcases List.mem_append.mp h1 with h2 | h2 <;>
      split_ifs at h2 <;> simp_all [isGrossMarginB]
  · split_ifs at h1 <;> simp_all [isGrossMarginB]

/-- When the peer's gross margin is falsy, the rules for that peer emit no
rule-1 insight either. -/
lemma gm_not_in_peer_rules_peer (main peer : Summary)
    (h : truthy (getEntryVal peer "Gross Margin (%)") = false) :
    ∀ i ∈ peer_rules main peer, isGrossMarginB i = false := by
  intro i hi
  unfold peer_rules at hi
  simp only [h, Bool.and_false, Bool.false_and, if_false] at hi
  rcases List.mem_append.mp hi with h1 | h1
  · rcases List.mem_append.mp h1 with h2 | h2 <;>
      split_ifs at h2 <;> simp_all [isGrossMarginB]
  · split_ifs at h1 <;> simp_all [isGrossMarginB]

/-- With a falsy subject gross margin the whole brief contains no rule-1
insight. -/
lemma gm_filter_brief (main : Summary) (peers : List Summary) (parsed : Parsed)
    (h : truthy (getEntryVal main "Gross Margin (%)") = false) :
    (generate_brief_insights main peers parsed).filter isGrossMarginB = [] := by
  rw [List.filter_eq_nil]
  intro i hi
  unfold generate_brief_insights at hi
  rw [foldl_append_peer, List.nil_append] at hi
  rcases List.mem_append.mp hi with h1 | h1
  · rcases List.mem_join.mp h1 with ⟨l, hl, hil⟩
    rcases List.mem_map.mp hl with ⟨p, _, rfl⟩
    simp [gm_not_in_peer_rules_main main p h i hil]
  · simp [gm_not_in_upload parsed i h1]

/-- Nothing in the upload notes is a rule-2 (SG&A burden) insight. -/
lemma sga_not_in_upload (parsed : Parsed) :
    ∀ i ∈ upload_notes parsed, isSgaBurdenB i = false := by
  intro i hi
  unfold upload_notes at hi
  rcases List.mem_append.mp hi with h | h <;>
    split_ifs at h <;> simp_all [List.mem_cons, List.mem_map] <;>
    rcases h with h | ⟨x, hx, rfl⟩ <;> simp_all [isSgaBurdenB]

/-- Nothing in the upload notes is a rule-3 (FCF margin) insight. -/
lemma fcf_not_in_upload (parsed : Parsed) :
    ∀ i ∈ upload_notes parsed, isFcfMarginB i = false := by
  intro i hi
  unfold upload_notes at hi
  rcases List.mem_append.mp hi with h | h <;>
    split_ifs at h <;> simp_all [List.mem_cons, List.mem_map] <;>
    rcases h with h | ⟨x, hx, rfl⟩ <;> simp_all [isFcfMarginB]

/-- When the subject's SG&A ratio is falsy (missing or zero), the rules for
any peer emit no rule-2 insight. -/
lemma sga_filter_rules_main (main peer : Summary)
    (h : truthy (getEntryVal main "SG&A as % of Revenue") = false) :
    (peer_rules main peer).filter isSgaBurdenB = [] := by
  rw [List.filter_eq_nil]
  intro i hi
  unfold peer_rules at hi
  simp only [h, Bool.and_false, Bool.false_and, if_false, List.nil_append,
    List.append_nil, List.mem_append] at hi
  rcases hi with h1 | h1 <;> split_ifs at h1 <;> simp_all [isSgaBurdenB]

/-- When the peer's SG&A ratio is falsy, the rules for that peer emit no
rule-2 insight. -/
lemma sga_filter_rules_peer (main peer : Summary)
    (h : truthy (getEntryVal peer "SG&A as % of Revenue") = false) :
    (peer_rules main peer).filter isSgaBurdenB = [] := by
  rw [List.filter_eq_nil]
  intro i hi
  unfold peer_rules at hi
  simp only [h, Bool.and_false, Bool.false_and, if_false, List.nil_append,
    List.append_nil, List.mem_append] at hi
  rcases hi with h1 | h1 <;> split_ifs at h1 <;> simp_all [isSgaBurdenB]

/-- When the subject's FCF margin is falsy, the rules for any peer emit no
rule-3 insight. -/
lemma fcf_filter_rules_main (main peer : Summary)
    (h : truthy (getEntryVal main "FCF Margin (%)") = false) :
    (peer_rules main peer).filter isFcfMarginB = [] := by
  rw [List.filter_eq_nil]
  intro i hi
  unfold peer_rules at hi
  rcases List.mem_append.mp hi with h1 | h1
  · rcases List.mem_append.mp h1 with h2 | h2 <;> split_ifs at h2 <;>
      simp_all [isFcfMarginB]
  · split_ifs at h1 <;> simp_all [isFcfMarginB]

/-- When the peer's FCF margin is falsy, the rules for that peer emit no
rule-3 insight. -/
lemma fcf_filter_rules_peer (main peer : Summary)
    (h : truthy (getEntryVal peer "FCF Margin (%)") = false) :
    (peer_rules main peer).filter isFcfMarginB = [] := by
  rw [List.filter_eq_nil]
  intro i hi
  unfold peer_rules at hi
  rcases List.mem_append.mp hi with h1 | h1
  · rcases List.mem_append.mp h1 with h2 | h2 <;> split_ifs at h2 <;>
      simp_all [isFcfMarginB]
  · split_ifs at h1 <;> simp_all [isFcfMarginB]

/-- When the subject's gross margin is falsy, the rules for any peer emit no
rule-1 insight (filter form of the membership lemma). -/
lemma gm_filter_rules_main (main peer : Summary)
    (h : truthy (getEntryVal main "Gross Margin (%)") = false) :
    (peer_rules main peer).filter isGrossMarginB = [] := by
  rw [List.filter_eq_nil]
  intro i hi
  simp [gm_not_in_peer_rules_main main peer h i hi]

/-- When the peer's gross margin is falsy, the rules for that peer emit no
rule-1 insight (filter form of the membership lemma). -/
lemma gm_filter_rules_peer (main peer : Summary)
    (h : truthy (getEntryVal peer "Gross Margin (%)") = false) :
    (peer_rules main peer).filter isGrossMarginB = [] := by
  rw [List.filter_eq_nil]
  intro i hi
  simp [gm_not_in_peer_rules_peer main peer h i hi]

/-- With a falsy subject SG&A ratio the whole brief contains no rule-2
insight. -/
lemma sga_filter_brief (main : Summary) (peers : List Summary) (parsed : Parsed)
    (h : truthy (getEntryVal main "SG&A as % of Revenue") = false) :
    (generate_brief_insights main peers parsed).filter isSgaBurdenB = [] := by
  rw [List.filter_eq_nil]
  intro i hi
  unfold generate_brief_insights at hi
  rw [foldl_append_peer, List.nil_append] at hi
  rcases List.mem_append.mp hi with h1 | h1
  · rcases List.mem_join.mp h1 with ⟨l, hl, hil⟩
    rcases List.mem_map.mp hl with ⟨p, _, rfl⟩
    have := List.filter_eq_nil.mp (sga_filter_rules_main main p h) i hil
    simpa using this
  · simpa using sga_not_in_upload parsed i h1

/-- With a falsy subject FCF margin the whole brief contains no rule-3
insight. -/
lemma fcf_filter_brief (main : Summary) (peers : List Summary) (parsed : Parsed)
    (h : truthy (getEntryVal main "FCF Margin (%)") = false) :
    (generate_brief_insights main peers parsed).filter isFcfMarginB = [] := by
  rw [List.filter_eq_nil]
  intro i hi
  unfold generate_brief_insights at hi
  rw [foldl_append_peer, List.nil_append] at hi
  rcases List.mem_append.mp hi with h1 | h1
  · rcases List.mem_join.mp h1 with ⟨l, hl, hil⟩
    rcases List.mem_map.mp hl with ⟨p, _, rfl⟩
    have := List.filter_eq_nil.mp (fcf_filter_rules_main main p h) i hil
    simpa using this
  · simpa using fcf_not_in_upload parsed i h1

/-- C4 counterexample: a subject with Cash 100 > Total Debt 50, Buybacks
present and Revenue CAGR 1 < 2 — the claimed rules would emit an
"over-capitalized" and a "buybacks despite weak growth" insight, but
`generate_brief` (with no peers and no uploaded material) emits nothing at
all: no subject-only rules exist after the peer loop. -/
theorem C4_cex :
    getEntryVal subjOverCap "Cash" = some 100 ∧
    getEntryVal subjOverCap "Total Debt" = some 50 ∧
    (50 : ℚ) < 100 ∧
    getEntryVal subjOverCap "Share Buybacks" = some 30 ∧
    getEntryVal subjOverCap "Revenue CAGR (%)" = some 1 ∧ (1 : ℚ) < 2 ∧
    generate_brief_insights subjOverCap [] emptyParsed = [] := by
  refine ⟨by decide, by decide, by norm_num, by decide, by decide, by norm_num, rfl⟩

/-- C4 (amended): after the per-peer comparison loop, `generate_brief`
appends only the strategy-flag and board-insight notes from uploaded
materials; it applies no subject-only capital-structure or buyback rules —
the insight list is exactly the per-peer rule hits followed by the upload
notes, and with no peers and no uploads it is empty for every subject. -/
theorem C4_amended :
    (∀ (main : Summary) (peers : List Summary) (parsed : Parsed),
      generate_brief_insights main peers parsed =
        (peers.map (peer_rules main)).join ++ upload_notes parsed) ∧
    (∀ main : Summary, generate_brief_insights main [] emptyParsed = []) := by
  constructor
  · intro main peers parsed
    unfold generate_brief_insights
    rw [foldl_append_peer, List.nil_append]
  · intro main
    rfl

/-- C9: every peer-comparison rule is suppressed by a missing value on
either side — a missing subject metric suppresses its rule for every peer
(brief level), and a missing peer metric suppresses that rule for that peer
(rule level), for all three rules (gross margin, SG&A burden, FCF margin);
suppression is silent (the brief is still produced). -/
theorem C9_thm :
    (∀ (main : Summary) (peers : List Summary) (parsed : Parsed),
      getEntryVal main "Gross Margin (%)" = none →
      (generate_brief_insights main peers parsed).filter isGrossMarginB = []) ∧
    (∀ (main : Summary) (peers : List Summary) (parsed : Parsed),
      getEntryVal main "SG&A as % of Revenue" = none →
      (generate_brief_insights main peers parsed).filter isSgaBurdenB = []) ∧
    (∀ (main : Summary) (peers : List Summary) (parsed : Parsed),
      getEntryVal main "FCF Margin (%)" = none →
      (generate_brief_insights main peers parsed).filter isFcfMarginB = []) ∧
    (∀ main peer : Summary, getEntryVal peer "Gross Margin (%)" = none →
      (peer_rules main peer).filter isGrossMarginB = []) ∧
    (∀ main peer : Summary, getEntryVal peer "SG&A as % of Revenue" = none →
      (peer_rules main peer).filter isSgaBurdenB = []) ∧
    (∀ main peer : Summary, getEntryVal peer "FCF Margin (%)" = none →
      (peer_rules main peer).filter isFcfMarginB = []) := by
  refine ⟨fun main peers parsed h => ?_, fun main peers parsed h => ?_,
    fun main peers parsed h => ?_, fun main peer h => ?_, fun main peer h => ?_,
    fun main peer h => ?_⟩
  · exact gm_filter_brief main peers parsed (by rw [h]; rfl)
  · exact sga_filter_brief main peers parsed (by rw [h]; rfl)
  · exact fcf_filter_brief main peers parsed (by rw [h]; rfl)
  · exact gm_filter_rules_peer main peer (by rw [h]; rfl)
  · exact sga_filter_rules_peer main peer (by rw [h]; rfl)
  · exact fcf_filter_rules_peer main peer (by rw [h]; rfl)

/-- C9 witness: a subject with all three metrics missing against a peer with
all three present yields no rule insight of any kind; a subject with all
metrics present against a peer with all missing likewise, rule by rule. -/
theorem C9_witness :
    (generate_brief_insights mainNoGM [peerFull] emptyParsed).filter isGrossMarginB = [] ∧
    (generate_brief_insights mainNoGM [peerFull] emptyParsed).filter isSgaBurdenB = [] ∧
    (generate_brief_insights mainNoGM [peerFull] emptyParsed).filter isFcfMarginB = [] ∧
    (peer_rules peerFull mainNoGM).filter isGrossMarginB = [] ∧
    (peer_rules peerFull mainNoGM).filter isSgaBurdenB = [] ∧
    (peer_rules peerFull mainNoGM).filter isFcfMarginB = [] :=
  ⟨C9_thm.1 mainNoGM [peerFull] emptyParsed (by decide),
   C9_thm.2.1 mainNoGM [peerFull] emptyParsed (by decide),
   C9_thm.2.2.1 mainNoGM [peerFull] emptyParsed (by decide),
   C9_thm.2.2.2.1 peerFull mainNoGM (by decide),
   C9_thm.2.2.2.2.1 peerFull mainNoGM (by decide),
   C9_thm.2.2.2.2.2 peerFull mainNoGM (by decide)⟩

/-- C8 counterexample: the annual balance sheet yields a Long Term Debt value
of exactly 0 — a value, not a miss — yet the summary's Total Debt comes from
the quarterly table (7), because `annual or quarterly` falls through on any
falsy value, not only on a missing one. -/
theorem C8_cex :
    get_val srcDebtZero.bal "Long Term Debt" (some "Total Debt") = some 0 ∧
    getEntryVal (analyze_company "T" (.ok srcDebtZero)) "Total Debt" = some 7 := by
  exact ⟨by decide, by rfl⟩

/-- C8 (amended): for Cash, Total Debt, Operating Cash Flow, CapEx and
Buybacks (and for Equity, observable through the Debt-to-Equity ratio), the
annual table is consulted first and the quarterly fallback is used exactly
when the annual lookup yields a falsy result — no value, or the value 0. -/
theorem C8_amended :
    (∀ t src, getEntryVal (analyze_company t (.ok src)) "Cash" =
      pyOr (get_val src.bal "Cash" none) (get_val src.qbal "Cash" none)) ∧
    (∀ t src, getEntryVal (analyze_company t (.ok src)) "Total Debt" =
      pyOr (get_val src.bal "Long Term Debt" (some "Total Debt"))
        (get_val src.qbal "Long Term Debt" (some "Total Debt"))) ∧
    (∀ t src, getEntryVal (analyze_company t (.ok src)) "Operating Cash Flow" =
      pyOr (get_val src.cf "Total Cash From Operating Activities" none)
        (get_val src.qcf "Total Cash From Operating Activities" none)) ∧
    (∀ t src, getEntryVal (analyze_company t (.ok src)) "CapEx" =
      pyOr (get_val src.cf "Capital Expenditures" none)
        (get_val src.qcf "Capital Expenditures" none)) ∧
    (∀ t src, getEntryVal (analyze_company t (.ok src)) "Share Buybacks" =
      pyOr (get_val src.cf "Repurchase Of Stock" none)
        (get_val src.qcf "Repurchase Of Stock" none)) ∧
    (∀ t src, getEntryVal (analyze_company t (.ok src)) "Debt-to-Equity Ratio" =
      (if truthy (pyOr (get_val src.bal "Long Term Debt" (some "Total Debt"))
            (get_val src.qbal "Long Term Debt" (some "Total Debt"))) &&
          truthy (pyOr (get_val src.bal "Total Stockholder Equity" none)
            (get_val src.qbal "Total Stockholder Equity" none)) then
        some (pythonRound2
          ((pyOr (get_val src.bal "Long Term Debt" (some "Total Debt"))
              (get_val src.qbal "Long Term Debt" (some "Total Debt"))).getD 0 /
            (pyOr (get_val src.bal "Total Stockholder Equity" none)
              (get_val src.qbal "Total Stockholder Equity" none)).getD 0))
       else none)) ∧
    (∀ a b : Option ℚ,
      (truthy a = true → pyOr a b = a) ∧ (truthy a = false → pyOr a b = b)) := by
  refine ⟨fun t src => rfl, fun t src => rfl, fun t src => rfl, fun t src => rfl,
    fun t src => rfl, fun t src => rfl, fun a b => ⟨fun h => ?_, fun h => ?_⟩⟩
  · simp [pyOr, h]
  · simp [pyOr, h]

/-- C8 witness: the annual-first resolution evaluated at a truthy annual
value, at a missing annual value, and through the summary at concrete
sources. -/
theorem C8_witness :
    pyOr (some 3) (some 9) = some 3 ∧
    pyOr none (some 9) = some 9 ∧
    getEntryVal (analyze_company "T" (.ok srcDebtZero)) "Cash" =
      pyOr (get_val srcDebtZero.bal "Cash" none) (get_val srcDebtZero.qbal "Cash" none) :=
  ⟨(C8_amended.2.2.2.2.2.2 (some 3) (some 9)).1 (by decide),
   (C8_amended.2.2.2.2.2.2 none (some 9)).2 (by decide),
   C8_amended.1 "T" srcDebtZero⟩

/-- C1 counterexample: when the source fetch raises, `analyze_company`
returns a dictionary holding only the `"error"` key — the failure reason is
set-level, but the result is not a complete metric set with missing markers
(no concept key is present); moreover even the success path never carries an
"Equity" entry. -/
theorem C1_cex :
    analyze_company "AAPL" (.error "timeout") =
      [("error", SVal.str "Yahoo Finance failed for AAPL: timeout")] ∧
    keysOf (analyze_company "AAPL" (.error "timeout")) = ["error"] ∧
    "Revenue" ∉ keysOf (analyze_company "AAPL" (.error "timeout")) ∧
    "Equity" ∉ keysOf (analyze_company "T" (.ok emptySources)) := by
  refine ⟨rfl, rfl, by decide, by decide⟩

/-- C1 (amended): when the sources load (however empty), `analyze_company`
returns the complete summary: every metric key of the summary dictionary is
present, an absent value is tagged with the `"Missing"` source marker, and
the set-level annotation of a failed load is the error-only dictionary of the
counterexample, not a complete set. -/
theorem C1_amended :
    (∀ (t : String) (src : Sources) (k : String),
      k ∈ ["Revenue", "Gross Profit", "SG&A", "Net Income", "Gross Margin (%)",
           "Net Income Margin (%)", "SG&A as % of Revenue", "Cash", "Total Debt",
           "Net Debt", "Debt-to-Equity Ratio", "Operating Cash Flow", "CapEx",
           "Share Buybacks", "Free Cash Flow", "FCF Margin (%)",
           "Revenue CAGR (%)", "Net Income CAGR (%)", "SG&A CAGR (%)"] →
      k ∈ keysOf (analyze_company t (.ok src))) ∧
    (∀ (v : Option ℚ) (s : String), v = none → label_source v s = SVal.entry none "Missing") ∧
    (∀ t src, getEntrySrc (analyze_company t (.ok src)) "Cash" =
      some (if (getEntryVal (analyze_company t (.ok src)) "Cash").isSome
            then "Yahoo Finance" else "Missing")) := by
  refine ⟨fun t src k hk => ?_, fun v s hv => ?_, fun t src => rfl⟩
  · fin_cases hk <;> simp [analyze_company, keysOf]
  · subst hv
    rfl

/-- C1 witness: completeness and the missing marker at concrete inputs. -/
theorem C1_witness :
    "Cash" ∈ keysOf (analyze_company "T" (.ok emptySources)) ∧
    label_source none "Yahoo Finance" = SVal.entry none "Missing" :=
  ⟨C1_amended.1 "T" emptySources "Cash" (by decide),
   C1_amended.2.1 none "Yahoo Finance" rfl⟩

/-- Rounding a real value whose hundredfold is an integer returns it exactly. -/
lemma pythonRound2R_intMul (n : ℤ) (x : ℝ) (hx : x * 100 = (n : ℝ)) :
    pythonRound2R x = (n : ℝ) / 100 := by
  unfold pythonRound2R roundHalfEvenR
  rw [hx, Int.floor_intCast]
  norm_num

/-- Evaluation of `cagr` on a two-period series: the exponent is 1, so the power is the
plain increase, rounded. -/
lemma cagr_pair (v0 v1 : ℚ) :
    cagr [v0, v1] =
      some (pythonRound2R ((((v0 : ℚ) : ℝ) / ((v1 : ℚ) : ℝ) - 1) * 100)) := by
  unfold cagr
  rw [if_pos (by simp)]
  norm_num [List.getLastD, Real.rpow_one]

/-- Evaluation of `calculate_trends` on a single-row table whose label is "Total Revenue". -/
lemma calculate_trends_total_revenue (series : PSeries) :
    calculate_trends [("Total Revenue", series)] "Total Revenue" =
      cagr (series.filterMap id) := by
  rfl

/-- C2 counterexample: the two-period series [-200, 100] has a negative
first/last quotient (-2), yet `calculate_trends` does not return missing — it
computes the power anyway (exponent 1 here, exactly as the float code does)
and returns -300.0. -/
theorem C2_cex :
    ((-200 : ℚ) / 100 < 0) ∧
    calculate_trends [("Total Revenue", [some (-200), some 100])] "Total Revenue" =
      some (-300) ∧
    (some (-300 : ℝ)) ≠ none := by
  refine ⟨by norm_num, ?_, by simp⟩
  rw [calculate_trends_total_revenue]
  have h1 : ([some (-200), some 100] : PSeries).filterMap id = [-200, 100] := by rfl
  rw [h1, cagr_pair]
  have h2 : (((-200 : ℚ) : ℝ) / ((100 : ℚ) : ℝ) - 1) * 100 * 100 = ((-30000 : ℤ) : ℝ) := by
    push_cast
    norm_num
  rw [pythonRound2R_intMul (-30000) _ h2]
  norm_num

/-- C2 (amended): with fewer than two (non-NaN) periods the CAGR is missing;
with at least two periods it is `round₂(((first/last)^(1/(n-1)) - 1) × 100)`
— rounded to two decimals, and with no guard on the sign of first/last (a
negative quotient still produces a result, not missing); the lookup feeding
it returns on the first exact label hit; `[200, 100]` gives 100.0. -/
theorem C2_amended :
    (∀ vals : List ℚ, vals.length < 2 → cagr vals = none) ∧
    (∀ (v0 : ℚ) (rest : List ℚ) (h : rest ≠ []),
      cagr (v0 :: rest) =
        some (pythonRound2R
          (((((v0 : ℚ) : ℝ) /
              (((v0 :: rest).getLast (List.cons_ne_nil v0 rest) : ℚ) : ℝ)) ^
            ((1 : ℝ) / (rest.length : ℝ)) - 1) * 100))) ∧
    (∀ (df : StmtTable) (item : String),
      calculate_trends df item =
        (exactFirstHit df (aliasesFor item)).bind (fun row => cagr (row.filterMap id))) ∧
    cagr [200, 100] = some 100 ∧
    calculate_trends [("Total Revenue", [some 200, some 100])] "Total Revenue" = some 100 := by
  have hpair : cagr [(200 : ℚ), 100] = some 100 := by
    rw [cagr_pair]
    have h2 : (((200 : ℚ) : ℝ) / ((100 : ℚ) : ℝ) - 1) * 100 * 100 = ((10000 : ℤ) : ℝ) := by
      push_cast
      norm_num
    rw [pythonRound2R_intMul 10000 _ h2]
    norm_num
  refine ⟨fun vals hlen => ?_, fun v0 rest h => ?_, fun df item => ?_, hpair, ?_⟩
  · unfold cagr
    rw [if_neg (by omega)]
  · unfold cagr
    rw [if_pos (by have := List.length_pos.mpr h; simp only [List.length_cons]; omega)]
    rw [List.getLastD_eq_getLast?, List.getLast?_eq_getLast_of_ne_nil (List.cons_ne_nil v0 rest)]
    have hlen : (((v0 :: rest).length : ℝ)) - 1 = (rest.length : ℝ) := by
      simp only [List.length_cons]
      push_cast
      ring
    rw [hlen]
    simp
  · unfold calculate_trends
    cases h : exactFirstHit df (aliasesFor item) <;> simp [h]
  · rw [calculate_trends_total_revenue]
    have h1 : ([some 200, some 100] : PSeries).filterMap id = [200, 100] := by rfl
    rw [h1, hpair]

/-- C2 witness: the amended statement at the empty series and at the
two-period series [300, 100], whose CAGR is 200%. -/
theorem C2_witness :
    cagr ([] : List ℚ) = none ∧ cagr [300, 100] = some 200 := by
  constructor
  · exact C2_amended.1 [] (by norm_num)
  · have h := C2_amended.2.1 300 [100] (by simp)
    rw [h]
    have h2 : (((300 : ℚ) : ℝ) /
        ((([300, 100] : List ℚ).getLast (List.cons_ne_nil 300 [100]) : ℚ) : ℝ)) ^
          ((1 : ℝ) / (([100] : List ℚ).length : ℝ)) - 1 = 2 := by
      have hl : ([300, 100] : List ℚ).getLast (List.cons_ne_nil 300 [100]) = 100 := by rfl
      rw [hl]
      norm_num [Real.rpow_one]
    rw [h2]
    have h3 : (2 : ℝ) * 100 * 100 = ((20000 : ℤ) : ℝ) := by norm_num
    rw [pythonRound2R_intMul 20000 _ h3]
    norm_num

/-- Bounds on the cube root of 1000/1150: it lies strictly between 0.95445
and 0.95450, so the IRR of the spec's grid example is strictly between
-4.555 and -4.550. -/
lemma irr_cube_bounds :
    (19089 : ℝ)/20000 < ((1000 : ℝ)/1150) ^ ((1 : ℝ)/3) ∧
    ((1000 : ℝ)/1150) ^ ((1 : ℝ)/3) < (1909 : ℝ)/2000 := by
  have hx0 : (0 : ℝ) ≤ (1000 : ℝ)/1150 := by norm_num
  have hpow : (((1000 : ℝ)/1150) ^ ((1 : ℝ)/3)) ^ (3 : ℕ) = (1000 : ℝ)/1150 := by
    rw [← Real.rpow_natCast (((1000 : ℝ)/1150) ^ ((1 : ℝ)/3)) 3, ← Real.rpow_mul hx0]
    norm_num
  have hxnn : (0 : ℝ) ≤ ((1000 : ℝ)/1150) ^ ((1 : ℝ)/3) := Real.rpow_nonneg hx0 _
  constructor
  · apply lt_of_pow_lt_pow_left 3 hxnn
    rw [hpow]
    norm_num
  · apply lt_of_pow_lt_pow_left 3 (by norm_num : (0 : ℝ) ≤ (1909 : ℝ)/2000)
    rw [hpow]
    norm_num

/-- The spec's grid example rounds to -4.55 (not -4.52). -/
lemma irr_rounding :
    pythonRound2R ((((1000 : ℝ)/1150) ^ ((1 : ℝ)/3) - 1) * 100) = -91/20 := by
  obtain ⟨hlo, hhi⟩ := irr_cube_bounds
  set x := ((1000 : ℝ)/1150) ^ ((1 : ℝ)/3) with hx
  have h2 : (x - 1) * 100 * 100 < -455 := by nlinarith
  have h3 : (1/2 : ℝ) < (x - 1) * 100 * 100 + 456 := by nlinarith
  have hfl : ⌊(x - 1) * 100 * 100⌋ = -456 := by
    rw [Int.floor_eq_iff]
    constructor
    · push_cast
      nlinarith
    · push_cast
      linarith
  unfold pythonRound2R roundHalfEvenR
  rw [hfl]
  split_ifs with ha hb
  · exfalso
    push_cast at ha
    linarith
  · push_cast
    norm_num
  · exfalso
    push_cast at hb
    linarith
  · exfalso
    push_cast at hb
    linarith

/-- Evaluation of `irrRow` when the entry enterprise value is positive. -/
lemma irrRow_eval (mc fcf : ℚ) (debt cash : Option ℚ) (m : ℕ)
    (hpos : 0 < mc + debt.getD 0 - cash.getD 0) :
    irrRow mc fcf debt cash m =
      (m, if irrRaw ((m : ℚ) * fcf) (mc + debt.getD 0 - cash.getD 0) = 0 then none
          else some (pythonRound2R (irrRaw ((m : ℚ) * fcf) (mc + debt.getD 0 - cash.getD 0)))) := by
  unfold irrRow
  rw [if_pos hpos]

/-- Evaluation of `irrRow` when the entry enterprise value is not positive. -/
lemma irrRow_eval_nonpos (mc fcf : ℚ) (debt cash : Option ℚ) (m : ℕ)
    (hnp : ¬ 0 < mc + debt.getD 0 - cash.getD 0) :
    irrRow mc fcf debt cash m = (m, none) := by
  unfold irrRow
  rw [if_neg hnp]

/-- The first component of an IRR row is always its multiple. -/
lemma irrRow_fst (mc fcf : ℚ) (debt cash : Option ℚ) (m : ℕ) :
    (irrRow mc fcf debt cash m).1 = m := by
  by_cases h : 0 < mc + debt.getD 0 - cash.getD 0
  · rw [irrRow_eval mc fcf debt cash m h]
  · rw [irrRow_eval_nonpos mc fcf debt cash m h]

/-- With the guard truthy and no negative-base power (FCF not negative with
a positive entry EV), the block yields the grid. -/
lemma irrTableOpt_grid (mc fcf : ℚ) (debt cash : Option ℚ) (hmc : mc ≠ 0) (hfcf : fcf ≠ 0)
    (hsafe : ¬ (fcf < 0 ∧ 0 < mc + debt.getD 0 - cash.getD 0)) :
    irrTableOpt (some mc) (some fcf) debt cash =
      some (IrrResult.grid ([8, 9, 10, 11, 12].map (irrRow mc fcf debt cash))) := by
  unfold irrTableOpt
  rw [if_pos (by simp [truthy, hmc, hfcf])]
  simp only [Option.getD_some]
  rw [if_neg hsafe]

/-- The spec example's row at multiple 10: exit EV 1000, entry EV 1150, IRR
rounds to -4.55. -/
lemma irrRow_grid_main :
    irrRow 1000 100 (some 200) (some 50) 10 = (10, some (-91/20 : ℝ)) := by
  rw [irrRow_eval 1000 100 (some 200) (some 50) 10 (by norm_num)]
  have hM : ((10 : ℕ) : ℚ) * 100 = 1000 := by norm_num
  have hE : (1000 : ℚ) + (some (200 : ℚ)).getD 0 - (some (50 : ℚ)).getD 0 = 1150 := by
    norm_num
  rw [hM, hE]
  have hval : irrRaw 1000 1150 = (((1000 : ℝ)/1150) ^ ((1 : ℝ)/3) - 1) * 100 := by
    unfold irrRaw
    norm_num
  rw [hval]
  rw [if_neg (by nlinarith [irr_cube_bounds.2])]
  rw [irr_rounding]

/-- The zero-IRR row: entry EV 1000, exit EV 1000, the computed IRR is
exactly 0, and the falsy check records `None` for it. -/
lemma irrRow_grid_zero :
    irrRow 1000 100 none none 10 = (10, none) := by
  rw [irrRow_eval 1000 100 none none 10 (by norm_num)]
  have hM : ((10 : ℕ) : ℚ) * 100 = 1000 := by norm_num
  have hE : (1000 : ℚ) + (none : Option ℚ).getD 0 - (none : Option ℚ).getD 0 = 1000 := by
    norm_num
  rw [hM, hE]
  have hval : irrRaw 1000 1000 = 0 := by
    unfold irrRaw
    norm_num [Real.one_rpow]
  rw [if_pos hval]

/-- C5 counterexample: at the spec's inputs (FCF 100, market cap 1000, debt
200, cash 50) the multiple-10 row carries -4.55, not -4.52; with debt and
cash absent the entry EV is 1000 > 0 yet the multiple-10 row carries a null
IRR (the computed IRR is exactly 0 and is falsy); with a market cap of
exactly 0 (present but falsy) no grid is produced at all; and with a
negative FCF (present, truthy) and a positive entry EV the whole block
errors out — the summary gets an error string, not a table of rows. -/
theorem C5_cex :
    ((gridRows? (irrTableOpt (some 1000) (some 100) (some 200) (some 50))).getD []).get? 2 =
      some (10, some (-91/20 : ℝ)) ∧
    ((-91 : ℝ)/20) ≠ -113/25 ∧
    ((gridRows? (irrTableOpt (some 1000) (some 100) none none)).getD []).get? 2 =
      some (10, none) ∧
    (0 : ℚ) < 1000 + (none : Option ℚ).getD 0 - (none : Option ℚ).getD 0 ∧
    irrTableOpt (some 0) (some 100) none none = none ∧
    irrTableOpt (some 1000) (some (-620)) (some 200) (some 50) = some IrrResult.err := by
  refine ⟨?_, by norm_num, ?_, by norm_num, ?_, ?_⟩
  · rw [irrTableOpt_grid 1000 100 (some 200) (some 50) (by norm_num) (by norm_num)
      (by norm_num)]
    simp only [gridRows?, Option.getD_some, List.map_cons, List.map_nil, List.get?]
    rw [irrRow_grid_main]
  · rw [irrTableOpt_grid 1000 100 none none (by norm_num) (by norm_num) (by norm_num)]
    simp only [gridRows?, Option.getD_some, List.map_cons, List.map_nil, List.get?]
    rw [irrRow_grid_zero]
  · unfold irrTableOpt
    rw [if_neg (by simp [truthy])]
  · unfold irrTableOpt
    rw [if_pos (by norm_num [truthy])]
    rw [if_pos (by norm_num)]

/-- C5 (amended): the `"IRR Table"` entry exists exactly when market cap and
FCF are truthy (present and nonzero).  When FCF is negative and the entry EV
positive, the float power is complex and `round` raises, so the entry is the
caught-error string instead of a grid.  Otherwise the grid has one row per
multiple in {8,9,10,11,12}; a row's IRR is `round₂(((m·FCF / (mc + debt -
cash))^(1/3) - 1) × 100)` when the entry EV is positive and that IRR is not
exactly 0, and null otherwise (entry EV ≤ 0, or an IRR of exactly 0, which
the truthiness check drops); the spec's example at multiple 10 yields -4.55. -/
theorem C5_amended :
    (∀ mc fcf debt cash : Option ℚ,
      (irrTableOpt mc fcf debt cash).isSome = (truthy mc && truthy fcf)) ∧
    (∀ mc fcf debt cash : Option ℚ,
      irrTableOpt mc fcf debt cash = some IrrResult.err ↔
        (truthy mc && truthy fcf) = true ∧ fcf.getD 0 < 0 ∧
          0 < mc.getD 0 + debt.getD 0 - cash.getD 0) ∧
    (∀ (mc fcf debt cash : Option ℚ) (rows : List (ℕ × Option ℝ)),
      irrTableOpt mc fcf debt cash = some (IrrResult.grid rows) →
      rows.length = 5 ∧ rows.map Prod.fst = [8, 9, 10, 11, 12] ∧
      rows = [8, 9, 10, 11, 12].map (irrRow (mc.getD 0) (fcf.getD 0) debt cash)) ∧
    (∀ (mc fcf : ℚ) (debt cash : Option ℚ) (m : ℕ),
      (0 < mc + debt.getD 0 - cash.getD 0 →
        irrRaw ((m : ℚ) * fcf) (mc + debt.getD 0 - cash.getD 0) ≠ 0 →
        irrRow mc fcf debt cash m =
          (m, some (pythonRound2R (irrRaw ((m : ℚ) * fcf) (mc + debt.getD 0 - cash.getD 0))))) ∧
      (0 < mc + debt.getD 0 - cash.getD 0 →
        irrRaw ((m : ℚ) * fcf) (mc + debt.getD 0 - cash.getD 0) = 0 →
        irrRow mc fcf debt cash m = (m, none)) ∧
      (¬ 0 < mc + debt.getD 0 - cash.getD 0 → irrRow mc fcf debt cash m = (m, none))) ∧
    ((gridRows? (irrTableOpt (some 1000) (some 100) (some 200) (some 50))).getD []).get? 2 =
      some (10, some (-91/20 : ℝ)) := by
  refine ⟨fun mc fcf debt cash => ?_, fun mc fcf debt cash => ?_,
    fun mc fcf debt cash rows hrows => ?_,
    fun mc fcf debt cash m => ⟨fun hpos hne => ?_, fun hpos heq => ?_, fun hnp => ?_⟩, ?_⟩
  · unfold irrTableOpt
    cases h : truthy mc && truthy fcf <;> simp [h]
  · unfold irrTableOpt
    cases h : truthy mc && truthy fcf
    · simp [h]
    · by_cases hc : fcf.getD 0 < 0 ∧ 0 < mc.getD 0 + debt.getD 0 - cash.getD 0 <;>
        simp [h, hc]
  · unfold irrTableOpt at hrows
    split_ifs at hrows with h1 h2
    · simp at hrows
    · simp only [Option.some.injEq, IrrResult.grid.injEq] at hrows
      subst hrows
      refine ⟨by simp, ?_, rfl⟩
      simp [irrRow_fst]
  · rw [irrRow_eval mc fcf debt cash m hpos, if_neg hne]
  · rw [irrRow_eval mc fcf debt cash m hpos, if_pos heq]
  · exact irrRow_eval_nonpos mc fcf debt cash m hnp
  · rw [irrTableOpt_grid 1000 100 (some 200) (some 50) (by norm_num) (by norm_num)
      (by norm_num)]
    simp only [gridRows?, Option.getD_some, List.map_cons, List.map_nil, List.get?]
    rw [irrRow_grid_main]

/-- C5 witness: the amended statement at the spec example's inputs, at the
negative-FCF error inputs, and at the zero-IRR inputs. -/
theorem C5_witness :
    (irrTableOpt (some 1000) (some 100) (some 200) (some 50)).isSome =
      (truthy (some (1000 : ℚ)) && truthy (some (100 : ℚ))) ∧
    irrTableOpt (some 1000) (some (-620)) (some 200) (some 50) = some IrrResult.err ∧
    ([8, 9, 10, 11, 12].map (irrRow ((some (1000 : ℚ)).getD 0) ((some (100 : ℚ)).getD 0)
      (some 200) (some 50))).length = 5 ∧
    irrRow 1000 100 none none 10 = (10, none) := by
  refine ⟨C5_amended.1 (some 1000) (some 100) (some 200) (some 50), ?_, ?_, ?_⟩
  · exact (C5_amended.2.1 (some 1000) (some (-620)) (some 200) (some 50)).mpr
      ⟨by norm_num [truthy], by norm_num, by norm_num⟩
  · exact (C5_amended.2.2.1 (some 1000) (some 100) (some 200) (some 50) _
      (irrTableOpt_grid 1000 100 (some 200) (some 50) (by norm_num) (by norm_num)
        (by norm_num))).1
  · refine (C5_amended.2.2.2.1 1000 100 none none 10).2.1 (by norm_num) ?_
    have hM : ((10 : ℕ) : ℚ) * 100 = 1000 := by norm_num
    have hE : (1000 : ℚ) + (none : Option ℚ).getD 0 - (none : Option ℚ).getD 0 = 1000 := by
      norm_num
    rw [hM, hE]
    unfold irrRaw
    norm_num [Real.one_rpow]
